import Mathlib

/-!
Verification of the summary-record lifecycle and query API of the
Frontend-CI repository (Express + Mongoose backend, `src/backend/server.js`,
`src/backend/routes/auth.js`, `src/backend/middleware/auth.js`).

The backend is shallowly embedded: a Mongo collection becomes a `List Summary`,
each route handler becomes a pure function from the collection and the parsed
request to a result, and the external collaborators (MongoDB, the JS `RegExp`
engine, `nanoid`, `jsonwebtoken`) are modelled at their interface boundary,
faithfully to how `server.js` invokes them.
-/

namespace FrontendCI

/-! ## JavaScript-side primitives -/

/-- Whitespace recognised by JS `String.prototype.trim`: the ECMAScript
WhiteSpace and LineTerminator code points (this is also the set the regex
class `\s` matches). Mongoose `trim: true` uses the same function. -/
def jsIsWs (c : Char) : Bool :=
  let n := c.val.toNat
  n = 9 || n = 10 || n = 11 || n = 12 || n = 13 || n = 32 || n = 160
    || n = 0x1680 || (0x2000 ≤ n && n ≤ 0x200a) || n = 0x2028 || n = 0x2029
    || n = 0x202f || n = 0x205f || n = 0x3000 || n = 0xfeff

/-- Drop leading whitespace from a character list. -/
def trimLeading : List Char → List Char
  | [] => []
  | c :: cs => if jsIsWs c then trimLeading cs else c :: cs

/-- Drop trailing whitespace from a character list. -/
def trimTrailing (l : List Char) : List Char :=
  (trimLeading l.reverse).reverse

/-- Model of JS `String.prototype.trim`: drop leading and trailing
whitespace. -/
def jsTrim (s : String) : String :=
  String.mk (trimTrailing (trimLeading s.data))

/-- JSON values as delivered by `express.json()` to `req.body`. -/
inductive JValue where
  | null
  | bool (b : Bool)
  | num (n : Int)
  | str (s : String)
  | arr (xs : List String)
deriving DecidableEq, Repr

/-- JS truthiness, as used by `Boolean(v)` in the star handler. (`NaN` is not
representable here; integers model the numbers the API receives.) -/
def jsTruthy : JValue → Bool
  | .null => false
  | .bool b => b
  | .num n => n != 0
  | .str s => s != ""
  | .arr _ => true

/-! ## Data model: the `Summary` document

Mongoose `summarySchema` in `server.js` declares exactly the paths
`note`, `summary`, `tags`, `starred`, `slug`, `createdAt` (plus the implicit
`_id`). A stored document is modelled with those fields; `createdAt` is an
epoch timestamp. -/

structure Summary where
  id : Nat
  note : String
  summary : String
  tags : List String
  starred : Bool
  slug : Option String
  createdAt : Nat
deriving DecidableEq, Repr

/-- The schema paths of `summarySchema` (besides the implicit `_id`). With
Mongoose default `strict: true`, any other key handed to the model
constructor or to an update is silently discarded. -/
def summarySchemaPaths : List String :=
  ["note", "summary", "tags", "starred", "slug", "createdAt"]

/-- Mongoose strict mode: of the keys supplied to the model, only schema
paths are kept in the stored document. -/
def strictKeptKeys (supplied : List String) : List String :=
  supplied.filter (fun k => summarySchemaPaths.contains k)

/-- The keys of the object the create handler passes to `new Summary(...)`:
`\x7b note, summary, tags: cleaned, userId: req.user.id \x7d`. -/
def createArgKeys : List String :=
  ["note", "summary", "tags", "userId"]

/-! ## The JS `RegExp` engine used by the list endpoint

`GET /api/summaries` builds `new RegExp(q, "i")` from the raw query string —
it does not escape metacharacters — and the store then tests the resulting
case-insensitive regex against `note`, `summary` and each element of
`tags`. The constructor uses ECMAScript's Annex-B (web) pattern grammar
without the `u` flag, which is very permissive: `]`, a brace that opens no
well-formed quantifier, and unknown escapes are all literals. It throws a
`SyntaxError` exactly for: an unbalanced group; a quantifier with nothing
to repeat (a leading `*`/`+`/`?`, a well-formed braced quantifier at term
position, or any quantifier after `^`, `$`, a word-boundary escape, a
lookbehind, or another quantifier); a braced quantifier with bounds out of
order; a trailing backslash; an unterminated character class; an
out-of-order class range between two single characters; an invalid group
head after a `(?`; and a malformed, duplicate, or (when named groups
exist) unresolvable group name. `compileRegex` below implements that
grammar, returning `none` exactly on those errors, and `mrun` implements
the matching semantics of the compiled pattern (backtracking search with
captures, backreferences, lookarounds, anchors and word boundaries; the
dot does not match line terminators). Documented boundary approximations,
none of which enlarges the error set: case folding for the `"i"` flag is
ASCII-only (Unicode simple case pairs are not folded); `\uXXXX` escapes
denoting lone surrogates are mapped to U+0000 (model strings are Unicode
scalar sequences); and a repetition whose mandatory iterations match
emptily is collapsed, which preserves whether a match exists. -/

/-- Line terminators: what `.` (without the `s` flag) does not match. -/
def isLineTerm (c : Char) : Bool :=
  let n := c.val.toNat
  n = 10 || n = 13 || n = 0x2028 || n = 0x2029

/-- Decimal digit, the class `\d`. -/
def isDigitCh (c : Char) : Bool :=
  48 ≤ c.val.toNat && c.val.toNat ≤ 57

/-- ASCII letter (used for control escapes `\cX`). -/
def isAsciiLetter (c : Char) : Bool :=
  (65 ≤ c.val.toNat && c.val.toNat ≤ 90)
    || (97 ≤ c.val.toNat && c.val.toNat ≤ 122)

/-- Word character, the class `\w`: `[A-Za-z0-9_]`. -/
def isWordCh (c : Char) : Bool :=
  isDigitCh c || isAsciiLetter c || c = '_'

/-- ASCII case folding used to model the `"i"` flag's canonicalization. -/
def foldCase (c : Char) : Char :=
  if 65 ≤ c.val.toNat && c.val.toNat ≤ 90 then Char.ofNat (c.val.toNat + 32)
  else c

/-- The other-case variant of an ASCII letter (itself otherwise); used for
class-range membership under canonicalization. -/
def caseFlip (c : Char) : Char :=
  if 65 ≤ c.val.toNat && c.val.toNat ≤ 90 then Char.ofNat (c.val.toNat + 32)
  else if 97 ≤ c.val.toNat && c.val.toNat ≤ 122 then
    Char.ofNat (c.val.toNat - 32)
  else c

/-- Canonicalized character comparison (the `"i"` flag). -/
def canonEq (a b : Char) : Bool := foldCase a = foldCase b

/-- Canonicalized comparison of two character lists of equal length. -/
def canonEqList : List Char → List Char → Bool
  | [], [] => true
  | a :: as, b :: bs => canonEq a b && canonEqList as bs
  | _, _ => false

/-- An item of a character class `[...]`: a single character, a range, or
one of the classes `\d \D \s \S \w \W` (stored as its letter). -/
inductive ClsItem where
  | one (c : Char)
  | range (lo hi : Char)
  | perl (letter : Char)
deriving DecidableEq, Repr

/-- Compiled regex AST. `rep a lo hi capLo capN` is a quantifier with `lo`
mandatory and `hi` maximal iterations (`none` = unbounded) whose body
contains the capture groups `capLo..capLo+capN-1` (cleared at the start of
each iteration, as ECMAScript's RepeatMatcher does); `look behind neg` is
a lookaround; `clear` is the internal capture-reset used by `rep`. -/
inductive Reg where
  | eps
  | anyCh
  | ch (c : Char)
  | perl (letter : Char)
  | cls (neg : Bool) (items : List ClsItem)
  | seq (a b : Reg)
  | alt (a b : Reg)
  | star (a : Reg)
  | rep (a : Reg) (lo : Nat) (hi : Option Nat) (capLo capN : Nat)
  | group (idx : Nat) (a : Reg)
  | look (behind : Bool) (neg : Bool) (a : Reg)
  | bol
  | eol
  | wordB (neg : Bool)
  | backref (n : Nat)
  | clear (capLo capN : Nat)
deriving DecidableEq, Repr

/-- Does `\d`-style class `letter` accept `c`? `\s` is the ECMAScript
WhiteSpace∪LineTerminator set, i.e. `jsIsWs`. -/
def perlMatch (letter : Char) (c : Char) : Bool :=
  if letter = 'd' then isDigitCh c
  else if letter = 'D' then !isDigitCh c
  else if letter = 's' then jsIsWs c
  else if letter = 'S' then !jsIsWs c
  else if letter = 'w' then isWordCh c
  else !isWordCh c

/-- Class-range membership under `"i"` canonicalization: some member of the
range is canonically equal to `c` — i.e. `c` or its case variant lies in
the raw range (ranges themselves are by code point, as in ECMAScript). -/
def inRangeCanon (lo hi c : Char) : Bool :=
  (lo.val.toNat ≤ c.val.toNat && c.val.toNat ≤ hi.val.toNat)
    || (lo.val.toNat ≤ (caseFlip c).val.toNat
        && (caseFlip c).val.toNat ≤ hi.val.toNat)

/-- One class item against one character. -/
def classItemMatch (it : ClsItem) (c : Char) : Bool :=
  match it with
  | .one x => canonEq x c
  | .range lo hi => inRangeCanon lo hi c
  | .perl l => perlMatch l c

/-- Matcher state: absolute position in the subject and the capture map
(group number → matched span). -/
structure MState where
  pos : Nat
  caps : Nat → Option (Nat × Nat)

/-- Character of the subject at absolute index `i`. -/
def charAt (s : List Char) (i : Nat) : Option Char := s.get? i

/-- Structural size of a pattern, used only to compute a sufficient fuel
bound for the backtracking matcher. -/
def regSize : Reg → Nat
  | .seq a b => regSize a + regSize b + 1
  | .alt a b => regSize a + regSize b + 1
  | .star a => regSize a + 1
  | .rep a _ _ _ _ => regSize a + 4
  | .group _ a => regSize a + 1
  | .look _ _ a => regSize a + 1
  | _ => 1

/-- Backtracking matcher in continuation style. `fuel` bounds the depth of
one chain of nested calls; every nested call either consumes a character,
descends into a strict subterm, or re-enters a `star`/`rep` after strict
position progress (an empty mandatory repetition is collapsed), so a chain
is longer than `regSize` only by consuming characters and
`fuelFor` below is a sufficient bound — the `0` case is unreachable from
`rtest`. -/
def mrun (full : List Char) : Nat → Reg → MState → (MState → Bool) → Bool
  | 0, _, _, _k => false
  | fuel + 1, r, st, k =>
    match r with
    | .eps => k st
    | .anyCh =>
      match charAt full st.pos with
      | none => false
      | some c => !isLineTerm c && k { st with pos := st.pos + 1 }
    | .ch x =>
      match charAt full st.pos with
      | none => false
      | some c => canonEq x c && k { st with pos := st.pos + 1 }
    | .perl l =>
      match charAt full st.pos with
      | none => false
      | some c => perlMatch l c && k { st with pos := st.pos + 1 }
    | .cls neg items =>
      match charAt full st.pos with
      | none => false
      | some c =>
        (neg != items.any (fun it => classItemMatch it c))
          && k { st with pos := st.pos + 1 }
    | .seq a b => mrun full fuel a st (fun st2 => mrun full fuel b st2 k)
    | .alt a b => mrun full fuel a st k || mrun full fuel b st k
    | .star a =>
      k st || mrun full fuel a st (fun st2 =>
        if st2.pos = st.pos then false else mrun full fuel (.star a) st2 k)
    | .rep a lo hi cl cn =>
      match lo with
      | n + 1 =>
        mrun full fuel (.seq (.clear cl cn) a) st (fun st2 =>
          if st2.pos = st.pos then
            mrun full fuel (.rep a 0 (hi.map (fun h => h - 1)) cl cn) st2 k
          else
            mrun full fuel (.rep a n (hi.map (fun h => h - 1)) cl cn) st2 k)
      | 0 =>
        match hi with
        | none => mrun full fuel (.star (.seq (.clear cl cn) a)) st k
        | some 0 => k st
        | some (h + 1) =>
          k st || mrun full fuel (.seq (.clear cl cn) a) st (fun st2 =>
            if st2.pos = st.pos then false
            else mrun full fuel (.rep a 0 (some h) cl cn) st2 k)
    | .group idx a =>
      mrun full fuel a st (fun st2 =>
        k { st2 with caps := fun i =>
          if i = idx then some (st.pos, st2.pos) else st2.caps i })
    | .look behind neg a =>
      if neg then
        let found :=
          if behind then
            (List.range (st.pos + 1)).any (fun b =>
              mrun full fuel a { st with pos := b }
                (fun st2 => st2.pos == st.pos))
          else mrun full fuel a st (fun _ => true)
        !found && k st
      else
        if behind then
          (List.range (st.pos + 1)).any (fun b =>
            mrun full fuel a { st with pos := b }
              (fun st2 => st2.pos == st.pos && k { st with caps := st2.caps }))
        else
          mrun full fuel a st (fun st2 => k { st with caps := st2.caps })
    | .bol => (st.pos == 0) && k st
    | .eol => (st.pos == full.length) && k st
    | .wordB neg =>
      let before :=
        if st.pos = 0 then false
        else match charAt full (st.pos - 1) with
          | some c => isWordCh c
          | none => false
      let after :=
        match charAt full st.pos with
        | some c => isWordCh c
        | none => false
      (if neg then before == after else before != after) && k st
    | .backref n =>
      match st.caps n with
      | none => k st
      | some (b, e) =>
        let txt := (full.drop b).take (e - b)
        if canonEqList txt ((full.drop st.pos).take (e - b)) then
          k { st with pos := st.pos + (e - b) }
        else false
    | .clear cl cn =>
      k { st with caps := fun i =>
        if cl ≤ i && i < cl + cn then none else st.caps i }

/-- Fuel sufficient for `mrun` (see its doc comment). -/
def fuelFor (r : Reg) (s : List Char) : Nat :=
  (4 * regSize r + 16) * (s.length + 4) + 16

/-- Model of `RegExp.prototype.test` for a non-global regex: attempt the
match at every position of the subject. -/
def rtest (r : Reg) (s : List Char) : Bool :=
  (List.range (s.length + 1)).any (fun i =>
    mrun s (fuelFor r s) r { pos := i, caps := fun _ => none } (fun _ => true))

/-- Evaluate the compiled `new RegExp(q, "i")` against a string field. -/
def rTestStr (p : Reg) (s : String) : Bool :=
  rtest p s.data

/-- The `$or` filter of the list endpoint: the regex matches `note`,
`summary`, or some element of `tags` (a regex filter on an array field
applies elementwise). -/
def summaryMatches (p : Reg) (r : Summary) : Bool :=
  rTestStr p r.note || rTestStr p r.summary || r.tags.any (fun t => rTestStr p t)

/-! ### The Annex-B pattern grammar -/

/-- Maximal run of decimal digits; `none` when the input does not start
with a digit. -/
def readDecAux : List Char → Nat → Bool → Option (Nat × List Char)
  | [], acc, started => if started then some (acc, []) else none
  | c :: r, acc, started =>
    if isDigitCh c then readDecAux r (acc * 10 + (c.val.toNat - 48)) true
    else if started then some (acc, c :: r) else none

/-- Read a decimal number. -/
def readDec (l : List Char) : Option (Nat × List Char) := readDecAux l 0 false

/-- Value of a hex digit. -/
def hexVal (c : Char) : Option Nat :=
  let n := c.val.toNat
  if 48 ≤ n && n ≤ 57 then some (n - 48)
  else if 97 ≤ n && n ≤ 102 then some (n - 87)
  else if 65 ≤ n && n ≤ 70 then some (n - 55)
  else none

/-- Read exactly `k` hex digits. -/
def readHex : Nat → List Char → Nat → Option (Nat × List Char)
  | 0, l, acc => some (acc, l)
  | _ + 1, [], _ => none
  | k + 1, c :: r, acc =>
    match hexVal c with
    | none => none
    | some v => readHex k r (acc * 16 + v)

/-- LegacyOctalEscapeSequence: an octal digit, then at most one more, and a
third only when the first is `0`–`3` (so the value stays below 256). -/
def readOct3 : List Char → Nat × List Char
  | [] => (0, [])
  | d1 :: r1 =>
    let v1 := d1.val.toNat - 48
    match r1 with
    | d2 :: r2 =>
      if 48 ≤ d2.val.toNat && d2.val.toNat ≤ 55 then
        let v2 := v1 * 8 + (d2.val.toNat - 48)
        if v1 ≤ 3 then
          match r2 with
          | d3 :: r3 =>
            if 48 ≤ d3.val.toNat && d3.val.toNat ≤ 55 then
              (v2 * 8 + (d3.val.toNat - 48), r3)
            else (v2, r2)
          | [] => (v2, [])
        else (v2, r2)
      else (v1, r1)
    | [] => (v1, [])

/-- Characters allowed in a capture group name (the identifier fragment the
model supports: letters, digits, `_`, `$`). -/
def isNameCh (c : Char) : Bool := isWordCh c || c = '$'

/-- Scan a group name up to the closing `>`. -/
def scanName : List Char → List Char → Option (String × List Char)
  | [], _ => none
  | '>' :: rest, acc =>
    if acc.isEmpty then none else some (String.mk acc.reverse, rest)
  | c :: rest, acc =>
    if isNameCh c then scanName rest (c :: acc) else none

/-- Look a group name up in the table built by the pre-scan. -/
def lookupName : List (String × Nat) → String → Option Nat
  | [], _ => none
  | (s, i) :: r, nm => if s = nm then some i else lookupName r nm

/-- Pre-scan of the pattern: counts capture groups and collects group
names (skipping classes and escapes), so that backreferences — which may
precede their group — can be resolved during the parse. `none` on a
malformed or duplicate group name. The fuel exceeds the input length, so
its `0` case is unreachable. -/
def preScan : Nat → List Char → Bool → Nat → List (String × Nat) →
    Option (Nat × List (String × Nat))
  | 0, _, _, _, _ => none
  | _ + 1, [], _, gc, names => some (gc, names)
  | f + 1, '\\' :: rest, inCls, gc, names =>
    match rest with
    | [] => some (gc, names)
    | _ :: rest2 => preScan f rest2 inCls gc names
  | f + 1, '[' :: rest, false, gc, names => preScan f rest true gc names
  | f + 1, ']' :: rest, true, gc, names => preScan f rest false gc names
  | f + 1, '(' :: '?' :: '<' :: c :: rest, false, gc, names =>
    if c = '=' || c = '!' then preScan f rest false gc names
    else
      match scanName (c :: rest) [] with
      | none => none
      | some (nm, rest2) =>
        match lookupName names nm with
        | some _ => none
        | none => preScan f rest2 false (gc + 1) ((nm, gc + 1) :: names)
  | f + 1, '(' :: '?' :: rest, false, gc, names => preScan f rest false gc names
  | f + 1, '(' :: rest, false, gc, names => preScan f rest false (gc + 1) names
  | f + 1, _ :: rest, inCls, gc, names => preScan f rest inCls gc names

/-- A class atom: a single character or a `\d`-style class. -/
inductive CAtom where
  | chA (c : Char)
  | perlA (letter : Char)
deriving DecidableEq, Repr

/-- Class item from a class atom. -/
def cAtomItem : CAtom → ClsItem
  | .chA c => .one c
  | .perlA l => .perl l

/-- Escape inside a character class (`\b` is backspace there; no
backreferences). Consumes the input after the backslash. -/
def pClsEsc : List Char → Option (CAtom × List Char)
  | [] => none
  | c :: rest =>
    if c = 'd' || c = 'D' || c = 's' || c = 'S' || c = 'w' || c = 'W' then
      some (.perlA c, rest)
    else if c = 'b' then some (.chA '\x08', rest)
    else if c = 'f' then some (.chA '\x0c', rest)
    else if c = 'n' then some (.chA '\n', rest)
    else if c = 'r' then some (.chA '\r', rest)
    else if c = 't' then some (.chA '\t', rest)
    else if c = 'v' then some (.chA '\x0b', rest)
    else if c = 'c' then
      match rest with
      | d :: r2 =>
        if isAsciiLetter d || isDigitCh d || d = '_' then
          some (.chA (Char.ofNat (d.val.toNat % 32)), r2)
        else some (.chA '\\', c :: rest)
      | [] => some (.chA '\\', c :: rest)
    else if c = 'x' then
      match readHex 2 rest 0 with
      | some (v, r2) => some (.chA (Char.ofNat v), r2)
      | none => some (.chA 'x', rest)
    else if c = 'u' then
      match readHex 4 rest 0 with
      | some (v, r2) => some (.chA (Char.ofNat v), r2)
      | none => some (.chA 'u', rest)
    else if isDigitCh c then
      if c.val.toNat ≤ 55 then
        let (v, r2) := readOct3 (c :: rest)
        some (.chA (Char.ofNat v), r2)
      else some (.chA c, rest)
    else some (.chA c, rest)

/-- One atom of a character class body. -/
def pClsAtom : List Char → Option (CAtom × List Char)
  | [] => none
  | '\\' :: rest => pClsEsc rest
  | c :: rest => some (.chA c, rest)

/-- Body of a character class after the optional `^`, up to the closing
`]`. `none` on an unterminated class or an out-of-order range between two
single characters; a `-` that forms no range, and Annex-B ranges touching
a `\d`-style class, are literals. -/
def pClassBody : Nat → List Char → Option (List ClsItem × List Char)
  | 0, _ => none
  | _ + 1, [] => none
  | _ + 1, ']' :: rest => some ([], rest)
  | f + 1, input =>
    match pClsAtom input with
    | none => none
    | some (a1, r1) =>
      match r1 with
      | '-' :: r2 =>
        match r2 with
        | [] => none
        | ']' :: _ =>
          match pClassBody f r1 with
          | none => none
          | some (items, rest2) => some (cAtomItem a1 :: items, rest2)
        | _ =>
          match pClsAtom r2 with
          | none => none
          | some (a2, r3) =>
            match a1, a2 with
            | .chA c1, .chA c2 =>
              if c1.val.toNat > c2.val.toNat then none
              else
                match pClassBody f r3 with
                | none => none
                | some (items, rest2) => some (.range c1 c2 :: items, rest2)
            | _, _ =>
              match pClassBody f r3 with
              | none => none
              | some (items, rest2) =>
                some (cAtomItem a1 :: .one '-' :: cAtomItem a2 :: items, rest2)
      | _ =>
        match pClassBody f r1 with
        | none => none
        | some (items, rest2) => some (cAtomItem a1 :: items, rest2)

/-- Result of attempting to read a quantifier: none present, a well-formed
one, or a braced one with its bounds out of order (a SyntaxError). -/
inductive QRes where
  | noQ
  | ooo
  | quant (lo : Nat) (hi : Option Nat) (rest : List Char)
deriving Repr

/-- Strip the lazy marker after a quantifier (laziness does not affect
whether a match exists, which is all `test` observes). -/
def lazyStrip : List Char → List Char
  | '?' :: r => r
  | r => r

/-- Attempt to read a quantifier: `*`, `+`, `?` or a well-formed braced
form; a malformed braced form is no quantifier (the brace is a literal). -/
def pQuant : List Char → QRes
  | '*' :: r => .quant 0 none (lazyStrip r)
  | '+' :: r => .quant 1 none (lazyStrip r)
  | '?' :: r => .quant 0 (some 1) (lazyStrip r)
  | '\x7b' :: r =>
    (match readDec r with
    | none => .noQ
    | some (n, r2) =>
      match r2 with
      | '\x7d' :: r3 => .quant n (some n) (lazyStrip r3)
      | ',' :: '\x7d' :: r3 => .quant n none (lazyStrip r3)
      | ',' :: r3 =>
        (match readDec r3 with
        | none => .noQ
        | some (m, r4) =>
          match r4 with
          | '\x7d' :: r5 =>
            if n > m then .ooo else .quant n (some m) (lazyStrip r5)
          | _ => .noQ)
      | _ => .noQ)
  | _ => .noQ

/-- Result of parsing one term: a SyntaxError, the end of the alternative,
or a parsed term with the next capture index and the remaining input. -/
inductive TermRes where
  | err
  | stop
  | item (r : Reg) (g : Nat) (rest : List Char)

/-- Apply an optional quantifier to a quantifiable atom spanning capture
groups `gLo..g2-1`. -/
def applyQ (a : Reg) (gLo g2 : Nat) (rest : List Char) : TermRes :=
  match pQuant rest with
  | .noQ => .item a g2 rest
  | .ooo => .err
  | .quant lo hi rest2 => .item (.rep a lo hi gLo (g2 - gLo)) g2 rest2

/-- A non-quantifiable assertion: any following quantifier is a
SyntaxError ("nothing to repeat"). -/
def assertTerm (a : Reg) (g : Nat) (rest : List Char) : TermRes :=
  match pQuant rest with
  | .noQ => .item a g rest
  | _ => .err

/-- Escape in term position (after the backslash; `\b`/`\B` are handled by
the term parser as assertions). `none` only on a trailing backslash or a
bad `\k` name. A decimal escape is a backreference when its value does not
exceed the pattern's group count, and otherwise falls back to a legacy
octal escape or a literal digit. -/
def pEsc (gc : Nat) (names : List (String × Nat)) :
    List Char → Option (Reg × List Char)
  | [] => none
  | c :: rest =>
    if c = 'd' || c = 'D' || c = 's' || c = 'S' || c = 'w' || c = 'W' then
      some (.perl c, rest)
    else if c = 'k' then
      if names.isEmpty then some (.ch 'k', rest)
      else
        match rest with
        | '<' :: r2 =>
          (match scanName r2 [] with
          | none => none
          | some (nm, r3) =>
            match lookupName names nm with
            | none => none
            | some idx => some (.backref idx, r3))
        | _ => none
    else if isDigitCh c && c ≠ '0' then
      match readDec (c :: rest) with
      | some (n, r2) =>
        if n ≤ gc then some (.backref n, r2)
        else if c.val.toNat ≤ 55 then
          let (v, r3) := readOct3 (c :: rest)
          some (.ch (Char.ofNat v), r3)
        else some (.ch c, rest)
      | none => none
    else if c = '0' then
      let (v, r2) := readOct3 (c :: rest)
      some (.ch (Char.ofNat v), r2)
    else if c = 'f' then some (.ch '\x0c', rest)
    else if c = 'n' then some (.ch '\n', rest)
    else if c = 'r' then some (.ch '\r', rest)
    else if c = 't' then some (.ch '\t', rest)
    else if c = 'v' then some (.ch '\x0b', rest)
    else if c = 'c' then
      match rest with
      | d :: r2 =>
        if isAsciiLetter d then some (.ch (Char.ofNat (d.val.toNat % 32)), r2)
        else some (.ch '\\', c :: rest)
      | [] => some (.ch '\\', c :: rest)
    else if c = 'x' then
      match readHex 2 rest 0 with
      | some (v, r2) => some (.ch (Char.ofNat v), r2)
      | none => some (.ch 'x', rest)
    else if c = 'u' then
      match readHex 4 rest 0 with
      | some (v, r2) => some (.ch (Char.ofNat v), r2)
      | none => some (.ch 'u', rest)
    else some (.ch c, rest)

/-- Parser phase: a disjunction (`|`-separated alternatives), one
alternative (a sequence of terms), or one term. A single recursive
function carries the phase so that recursion is structural on the fuel and
the parser evaluates by kernel reduction. -/
inductive PMode where
  | disj
  | alts
  | term
deriving DecidableEq, Repr

/-- Recursive-descent parser for the Annex-B pattern grammar. `.stop`
arises only in term phase (at `|`, `)` or the end); `.err` is a
SyntaxError. In disjunction and alternative phase the result is never
`.stop`. The fuel strictly exceeds the number of parser steps possible for
the input (each step consumes input or moves to a smaller phase), so its
exhaustion is unreachable from `compileRegex`. -/
def pRun : Nat → PMode → Nat → List (String × Nat) → Nat → List Char →
    TermRes
  | 0, _, _, _, _, _ => .err
  | pf + 1, .disj, gc, names, g, input =>
    (match pRun pf .alts gc names g input with
    | .err => .err
    | .stop => .err
    | .item r g2 rest =>
      match rest with
      | '|' :: rest2 =>
        (match pRun pf .disj gc names g2 rest2 with
        | .item r2 g3 rest3 => .item (.alt r r2) g3 rest3
        | _ => .err)
      | _ => .item r g2 rest)
  | pf + 1, .alts, gc, names, g, input =>
    (match pRun pf .term gc names g input with
    | .err => .err
    | .stop => .item .eps g input
    | .item r g2 rest =>
      match pRun pf .alts gc names g2 rest with
      | .item r2 g3 rest2 => .item (.seq r r2) g3 rest2
      | _ => .err)
  | pf + 1, .term, gc, names, g, input =>
    match input with
    | [] => .stop
    | '|' :: _ => .stop
    | ')' :: _ => .stop
    | '^' :: rest => assertTerm .bol g rest
    | '$' :: rest => assertTerm .eol g rest
    | '*' :: _ => .err
    | '+' :: _ => .err
    | '?' :: _ => .err
    | '(' :: '?' :: ':' :: rest =>
      (match pRun pf .disj gc names g rest with
      | .item b g2 (')' :: rest3) => applyQ b g g2 rest3
      | _ => .err)
    | '(' :: '?' :: '=' :: rest =>
      (match pRun pf .disj gc names g rest with
      | .item b g2 (')' :: rest3) => applyQ (.look false false b) g g2 rest3
      | _ => .err)
    | '(' :: '?' :: '!' :: rest =>
      (match pRun pf .disj gc names g rest with
      | .item b g2 (')' :: rest3) => applyQ (.look false true b) g g2 rest3
      | _ => .err)
    | '(' :: '?' :: '<' :: '=' :: rest =>
      (match pRun pf .disj gc names g rest with
      | .item b g2 (')' :: rest3) => assertTerm (.look true false b) g2 rest3
      | _ => .err)
    | '(' :: '?' :: '<' :: '!' :: rest =>
      (match pRun pf .disj gc names g rest with
      | .item b g2 (')' :: rest3) => assertTerm (.look true true b) g2 rest3
      | _ => .err)
    | '(' :: '?' :: '<' :: rest =>
      (match scanName rest [] with
      | none => .err
      | some (_, rest2) =>
        match pRun pf .disj gc names (g + 1) rest2 with
        | .item b g2 (')' :: rest4) => applyQ (.group g b) g g2 rest4
        | _ => .err)
    | '(' :: '?' :: _ => .err
    | '(' :: rest =>
      (match pRun pf .disj gc names (g + 1) rest with
      | .item b g2 (')' :: rest3) => applyQ (.group g b) g g2 rest3
      | _ => .err)
    | '[' :: '^' :: rest =>
      (match pClassBody (rest.length + 4) rest with
      | none => .err
      | some (items, rest2) => applyQ (.cls true items) g g rest2)
    | '[' :: rest =>
      (match pClassBody (rest.length + 4) rest with
      | none => .err
      | some (items, rest2) => applyQ (.cls false items) g g rest2)
    | '.' :: rest => applyQ .anyCh g g rest
    | '\\' :: 'b' :: rest => assertTerm (.wordB false) g rest
    | '\\' :: 'B' :: rest => assertTerm (.wordB true) g rest
    | '\\' :: rest =>
      (match pEsc gc names rest with
      | none => .err
      | some (a, rest2) => applyQ a g g rest2)
    | c :: rest =>
      if c = '\x7b' then
        match pQuant input with
        | .noQ => applyQ (.ch c) g g rest
        | _ => .err
      else applyQ (.ch c) g g rest

/-- Model of `new RegExp(q, "i")`: `none` exactly when the constructor
throws a `SyntaxError` (see the section comment). -/
def compileRegex (q : String) : Option Reg :=
  let cs := q.data
  match preScan (cs.length + 4) cs false 0 [] with
  | none => none
  | some (gc, names) =>
    match pRun (4 * cs.length + 16) .disj gc names 1 cs with
    | .item r _ rest => if rest.isEmpty then some r else none
    | _ => none

/-- Search a subject with a filter string, as the endpoint does per field
(used below only to pin the engine's behaviour on concrete cases). -/
def regexFilterHits (q s : String) : Bool :=
  match compileRegex q with
  | some r => rTestStr r s
  | none => false

/- Fidelity checks for the error path: these patterns compile (Annex-B is
permissive)... -/
example : (compileRegex "a*").isSome = true := by decide
example : (compileRegex "]").isSome = true := by decide
example : (compileRegex "\x7b").isSome = true := by decide
example : (compileRegex "a\x7b2\x7d").isSome = true := by decide
example : (compileRegex "x|y").isSome = true := by decide
example : (compileRegex "\\d+").isSome = true := by decide
example : (compileRegex "(?=a)*").isSome = true := by decide
example : (compileRegex "(a)(b)\\2").isSome = true := by decide
example : (compileRegex "(?<n>a)\\k<n>").isSome = true := by decide
example : (compileRegex "[a-\\d]").isSome = true := by decide
example : (compileRegex "\\q").isSome = true := by decide

/- ... and these are exactly the `SyntaxError` cases. -/
example : (compileRegex "(").isSome = false := by decide
example : (compileRegex ")").isSome = false := by decide
example : (compileRegex "*").isSome = false := by decide
example : (compileRegex "a**").isSome = false := by decide
example : (compileRegex "^*").isSome = false := by decide
example : (compileRegex "\\b*").isSome = false := by decide
example : (compileRegex "(?<=a)*").isSome = false := by decide
example : (compileRegex "\x7b2\x7d").isSome = false := by decide
example : (compileRegex "a\x7b3,1\x7d").isSome = false := by decide
example : (compileRegex "a\\").isSome = false := by decide
example : (compileRegex "[abc").isSome = false := by decide
example : (compileRegex "[z-a]").isSome = false := by decide
example : (compileRegex "(?a)").isSome = false := by decide
example : (compileRegex "(?<n>a)(?<n>b)").isSome = false := by decide

/- Fidelity checks for matching: the `i` flag, the dot excluding line
terminators, anchors, classes, quantifiers, boundaries, lookarounds and
backreferences. -/
example : regexFilterHits "a*" "b" = true := by decide
example : regexFilterHits "hello" "say Hello!" = true := by decide
example : regexFilterHits "." "x" = true := by decide
example : regexFilterHits "." "\n" = false := by decide
example : regexFilterHits "." "\r" = false := by decide
example : regexFilterHits "[^]" "\n" = true := by decide
example : regexFilterHits "^ab" "xab" = false := by decide
example : regexFilterHits "ab$" "xab" = true := by decide
example : regexFilterHits "a\x7b2,3\x7d" "caaat" = true := by decide
example : regexFilterHits "a\x7b4,\x7d" "aaab" = false := by decide
example : regexFilterHits "colou?r" "color" = true := by decide
example : regexFilterHits "\\d\\d" "a42" = true := by decide
example : regexFilterHits "[a-c]x" "dx" = false := by decide
example : regexFilterHits "[A-Z]" "q" = true := by decide
example : regexFilterHits "(a.)\\1" "xaZaz!" = true := by decide
example : regexFilterHits "\\bcat\\b" "a cat sat" = true := by decide
example : regexFilterHits "\\bcat\\b" "scatter" = false := by decide
example : regexFilterHits "a(?=b)" "ac" = false := by decide
example : regexFilterHits "(?<=a)b" "cb" = false := by decide
example : regexFilterHits "\\." "ab" = false := by decide
example : regexFilterHits "(?:(a)|b)\x7b2\x7d\\1" "ab" = true := by decide

/-! ## Sorting

The list endpoint passes `req.query.sort || "-createdAt"` to Mongo.
A leading `-` selects descending order on the named field. The store is
modelled as returning a deterministic (stable) sort; ties and unknown fields
keep insertion order. -/

/-- Lexicographic comparison of strings by code point, modelling the byte
order Mongo uses for string sort keys. -/
def lexLe : List Char → List Char → Bool
  | [], _ => true
  | _ :: _, [] => false
  | a :: as, b :: bs => if a = b then lexLe as bs else a.val.toNat ≤ b.val.toNat

/-- Non-strict comparison of two documents on one named field; ascending
direction. Unknown fields compare equal (Mongo leaves the order alone). -/
def fieldLe (field : String) (a b : Summary) : Bool :=
  if field = "createdAt" then a.createdAt ≤ b.createdAt
  else if field = "note" then lexLe a.note.data b.note.data
  else if field = "summary" then lexLe a.summary.data b.summary.data
  else if field = "starred" then !a.starred || b.starred
  else if field = "_id" then a.id ≤ b.id
  else true

/-- Comparator for a Mongo sort spec such as `-createdAt` or `note`: a
leading `-` selects the descending direction on the named field. -/
def sortLe (spec : String) (a b : Summary) : Bool :=
  match spec.data with
  | '-' :: field => fieldLe (String.mk field) b a
  | _ => fieldLe spec a b

/-- The ordered sequence the store returns for `find(filter).sort(spec)`:
a deterministic stable sort by the requested comparator. -/
def sortSummaries (spec : String) (l : List Summary) : List Summary :=
  List.insertionSort (fun a b => sortLe spec a b = true) l

/-! ## GET /api/summaries -/

/-- Result of the list endpoint: a plain array (backward-compatible mode), a
pagination envelope `\x7b items, page, pages, total \x7d`, or the 500 the
handler produces when the `RegExp` constructor throws. -/
inductive ListResult where
  | plain (items : List Summary)
  | paged (items : List Summary) (page : Nat) (pages : Nat) (total : Nat)
  | serverError
deriving DecidableEq, Repr

/-- JS `Math.ceil(total / limit)` for natural `total` and positive `limit`. -/
def ceilDiv (n l : Nat) : Nat := (n + l - 1) / l

/-- Handler of `GET /api/summaries`. `q`, `page`, `limit`, `sort` are the
query parameters after the handler's own coercions: `q` is
`(req.query.q || "").toString().trim()` (trim applied below), `page` and
`limit` are `Number(... || 0)` (so an absent parameter is `0`; a
non-numeric one is `NaN`, which like non-positive numbers fails the
`page > 0 && limit > 0` test and is modelled by a non-positive `Int`), and
`sort` defaults to `"-createdAt"`. -/
def listSummaries (db : List Summary) (q : String) (page limit : Int)
    (sort : String := "-createdAt") : ListResult :=
  let qt := jsTrim q
  let pat : Option (Option Reg) :=
    if qt = "" then some none else (compileRegex qt).map some
  match pat with
  | none => .serverError
  | some pat2 =>
    let matching := match pat2 with
      | none => db
      | some p => db.filter (fun r => summaryMatches p r)
    let sorted := sortSummaries sort matching
    if page > 0 && limit > 0 then
      let L := limit.toNat
      let skip := (page - 1).toNat * L
      .paged ((sorted.drop skip).take L) page.toNat
        (ceilDiv sorted.length L) sorted.length
    else
      .plain sorted

/-- Outcome of a mutating endpoint: the HTTP status it maps to, per the
handlers in `server.js`. `ok` carries the response document and the new
collection state. `validationError` is the 400 from `express-validator`;
`badRequest` is the 400 produced by the `catch` of the update/star/delete
handlers; `notFound` is 404; `serverError` is 500. -/
inductive ApiOutcome where
  | ok (doc : Summary) (db : List Summary)
  | validationError
  | badRequest
  | notFound
  | serverError
deriving DecidableEq, Repr

/-- Request body of the create endpoint: `\x7b note, summary, tags? \x7d`
plus whatever extra keys the client sent (listed by name: they reach
`new Summary(...)` only if spelled like a schema path, which the extras of
interest — `ownerId`, `starred` impostors, etc. — are tracked through
`strictKeptKeys`; the handler itself destructures only the three fields). -/
structure CreateBody where
  note : String
  summary : String
  tags : Option (List String)
deriving DecidableEq, Repr

/-- Validation chain of the create route: `note` is a string of length
1–20000, `summary` a string of length 1–8000, `tags` (when present) an
array of at most 10 elements. -/
def validCreateBody (b : CreateBody) : Bool :=
  1 ≤ b.note.length && b.note.length ≤ 20000
    && 1 ≤ b.summary.length && b.summary.length ≤ 8000
    && (match b.tags with
        | none => true
        | some ts => ts.length ≤ 10)

/-- The tag-cleaning line of the create handler:
`tags.map((t) => String(t).trim()).filter(Boolean).slice(0, 10)`. -/
def cleanTags (ts : List String) : List String :=
  ((ts.map jsTrim).filter (fun t => t ≠ "")).take 10

/-- Handler of `POST /api/summaries` (after `verifyJWT` attached the caller
as `req.user`). `freshId` and `now` stand for the `_id` and `Date.now`
defaults the store generates. The handler passes
`userId: req.user.id` to `new Summary(...)`, but `userId` is not a schema
path, so strict mode drops it: the stored document (the `Summary`
structure) carries no owner field at all, which is why `userRequestingId`
does not appear in the result. -/
def createSummary (db : List Summary) (b : CreateBody)
    (_userRequestingId : Nat) (freshId : Nat) (now : Nat) : ApiOutcome :=
  if !validCreateBody b then .validationError
  else
    let doc : Summary :=
      { id := freshId
        note := b.note
        summary := b.summary
        tags := cleanTags (b.tags.getD [])
        starred := false
        slug := none
        createdAt := now }
    .ok doc (db ++ [doc])

/-! ## PUT /api/summaries/:id (update) -/

/-- Request body of the update endpoint as Mongoose casts it. The handler
forwards `req.body` wholesale to `findByIdAndUpdate`; strict mode keeps
every schema path present in the body — including `slug` and `createdAt`,
which the validators never look at — and discards the rest. `extraKeys`
lists the non-schema keys of the body (e.g. `ownerId`, `userId`); they have
no effect, which the frame theorem below makes explicit. -/
structure UpdateBody where
  note : Option String := none
  summary : Option String := none
  tags : Option (List String) := none
  starred : Option Bool := none
  slug : Option String := none
  createdAt : Option Nat := none
  extraKeys : List String := []
deriving DecidableEq, Repr

/-- Validation chain of the update route: each of `note`, `summary`, `tags`,
`starred` is optional, with the same bounds as at creation; `starred` must
be a boolean (already enforced by the field's type here); no other key is
validated. -/
def validUpdateBody (b : UpdateBody) : Bool :=
  (match b.note with
    | none => true
    | some s => 1 ≤ s.length && s.length ≤ 20000)
  && (match b.summary with
      | none => true
      | some s => 1 ≤ s.length && s.length ≤ 8000)
  && (match b.tags with
      | none => true
      | some ts => ts.length ≤ 10)

/-- The `$set` Mongoose derives from the body: every schema path present in
the body overwrites the stored value (schema `trim: true` runs on each tag);
absent paths and non-schema keys leave the document unchanged. -/
def applyUpdate (r : Summary) (b : UpdateBody) : Summary :=
  { r with
    note := b.note.getD r.note
    summary := b.summary.getD r.summary
    tags := (b.tags.map (fun ts => ts.map jsTrim)).getD r.tags
    starred := b.starred.getD r.starred
    slug := (b.slug.map some).getD r.slug
    createdAt := b.createdAt.getD r.createdAt }

/-- Replace the document with matching id (Mongo point update). -/
def replaceById (db : List Summary) (id : Nat) (f : Summary → Summary) :
    List Summary :=
  db.map (fun r => if r.id = id then f r else r)

/-- Handler of `PUT /api/summaries/:id`: validate, then
`findByIdAndUpdate(id, req.body, \x7b new: true \x7d)`; a missing id is 404.
Assigning a `slug` already borne by another document violates the unique
index, which the `catch` maps to 400. -/
def updateSummary (db : List Summary) (id : Nat) (b : UpdateBody) :
    ApiOutcome :=
  if !validUpdateBody b then .validationError
  else
    match db.find? (fun r => r.id = id) with
    | none => .notFound
    | some r =>
      if (match b.slug with
          | none => false
          | some s => db.any (fun o => o.id ≠ id && o.slug = some s)) then
        .badRequest
      else
        .ok (applyUpdate r b) (replaceById db id (fun r2 => applyUpdate r2 b))

/-! ## PATCH /api/summaries/:id/star -/

/-- Handler of `PATCH /api/summaries/:id/star` (unauthenticated). The
`starred` field of the body is `none` when the key is absent (JS
`undefined`); the handler runs
`doc.starred = Boolean(req.body.starred ?? !doc.starred)`, so both an
absent key and an explicit `null` toggle, and any other JSON value is
coerced by truthiness. No validator runs on this route. -/
def patchStar (db : List Summary) (id : Nat) (starredField : Option JValue) :
    ApiOutcome :=
  match db.find? (fun r => r.id = id) with
  | none => .notFound
  | some doc =>
    let newVal : Bool :=
      match starredField with
      | none => !doc.starred
      | some JValue.null => !doc.starred
      | some v => jsTruthy v
    .ok { doc with starred := newVal }
      (replaceById db id (fun r => { r with starred := newVal }))

/-! ## POST /api/summaries/:id/share and GET /api/s/:slug -/

/-- Handler of `POST /api/summaries/:id/share` (unauthenticated). `newSlug`
stands for the value of `nanoid(10)` — a fresh 10-character random string
from a URL-safe alphabet, supplied here as an oracle parameter since the
generator is an external library. `findByIdAndUpdate(id, \x7b slug \x7d)`
overwrites any previous slug; a missing id is 404; a collision with a slug
borne by another document violates the unique index and the `catch` maps it
to 500. -/
def share (db : List Summary) (id : Nat) (newSlug : String) : ApiOutcome :=
  match db.find? (fun r => r.id = id) with
  | none => .notFound
  | some r =>
    if db.any (fun o => o.id ≠ id && o.slug = some newSlug) then .serverError
    else
      .ok { r with slug := some newSlug }
        (replaceById db id (fun r2 => { r2 with slug := some newSlug }))

/-- The restricted projection the public read returns:
`\x7b note, summary, tags, createdAt \x7d` — by construction this structure
has no id, owner, or slug field. -/
structure PublicView where
  note : String
  summary : String
  tags : List String
  createdAt : Nat
deriving DecidableEq, Repr

/-- Project a stored document to its public view. -/
def toPublicView (d : Summary) : PublicView :=
  { note := d.note, summary := d.summary, tags := d.tags
    createdAt := d.createdAt }

/-- Handler of `GET /api/s/:slug`: `findOne(\x7b slug \x7d)`; `none` models
the 404 `\x7b message: "Not found" \x7d` branch. -/
def getBySlug (db : List Summary) (slug : String) : Option PublicView :=
  (db.find? (fun r => r.slug = some slug)).map toPublicView

/-! ## Token Service and Auth Middleware

`routes/auth.js` signs `\x7b id: u._id, email: u.email \x7d` with
`jwt.sign(..., JWT_SECRET, \x7b expiresIn: "15m" \x7d)`;
`middleware/auth.js` verifies with `jwt.verify(token, JWT_SECRET)`. The
`jsonwebtoken` library is external and is modelled as an idealized MAC: a
token is its payload plus a signature that verifies exactly when it was
produced over that payload with that secret, and verification additionally
requires the current time to be before `exp` (a 15-minute = 900-second
lifetime from issuance). -/

structure JwtPayload where
  id : Nat
  email : String
  iat : Nat
  exp : Nat
deriving DecidableEq, Repr

/-- A signed token: payload plus idealized signature (the pair of the signed
payload and the signing secret — an abstract perfect MAC). -/
structure JwtToken where
  payload : JwtPayload
  sig : JwtPayload × String
deriving DecidableEq, Repr

/-- The `sign` helper of `routes/auth.js`:
`jwt.sign(\x7b id, email \x7d, JWT_SECRET, \x7b expiresIn: "15m" \x7d)`. -/
def sign (secret : String) (uid : Nat) (email : String) (now : Nat) :
    JwtToken :=
  let p : JwtPayload := { id := uid, email := email, iat := now
                          exp := now + 900 }
  { payload := p, sig := (p, secret) }

/-- Model of `jwt.verify(token, secret)` evaluated at time `now`: succeeds
exactly when the signature binds the payload to this secret and the token is
not yet expired; `none` models the library throwing. -/
def jwtVerify (secret : String) (t : JwtToken) (now : Nat) :
    Option JwtPayload :=
  if t.sig = (t.payload, secret) ∧ now < t.payload.exp then some t.payload
  else none

/-- Result of the auth middleware: either the resolved identity attached as
`req.user`, or the 401 short-circuit. -/
inductive AuthResult where
  | authed (id : Nat) (email : String)
  | unauthorized
deriving DecidableEq, Repr

/-- The `verifyJWT` middleware of `middleware/auth.js`. `bearerToken` is the
token extracted from the `Authorization` header: `none` models a missing
header or one without the `Bearer ` scheme (both 401); a present token is
verified and a verification failure (tampered or expired) is the 401
`Invalid token` branch. -/
def verifyJWT (secret : String) (bearerToken : Option JwtToken) (now : Nat) :
    AuthResult :=
  match bearerToken with
  | none => .unauthorized
  | some t =>
    match jwtVerify secret t now with
    | none => .unauthorized
    | some p => .authed p.id p.email

/-! ## Registration (`POST /api/auth/register`) -/

/-- Modelled from the spec: the User document. `src/backend/models/User.js`
is imported by `routes/auth.js` but is not among the provided sources; per
the spec a User carries an opaque unique id, a unique email, and a salted
one-way password hash. -/
structure User where
  id : Nat
  email : String
  passwordHash : String
deriving DecidableEq, Repr

/-- Modelled from the spec: the salted one-way password hash computed by the
missing User model at creation. Idealized as an injective tagging
function — only its one-way storage role matters to the claims. -/
def specHash (password : String) : String := "hash:" ++ password

/-- Split a character list at the first occurrence of a separator. -/
def splitAtChar (sep : Char) : List Char → Option (List Char × List Char)
  | [] => none
  | c :: cs =>
    if c = sep then some ([], cs)
    else (splitAtChar sep cs).map (fun p => (c :: p.1, p.2))

/-- Fragment of `express-validator`'s `isEmail` sufficient for the claims:
one `@` separating a non-empty local part from a domain that contains a dot
and neither another `@` nor whitespace anywhere. -/
def isEmailLike (s : String) : Bool :=
  match splitAtChar '@' s.data with
  | none => false
  | some (local_, domain) =>
    !local_.isEmpty && !domain.isEmpty && domain.contains '.'
      && !domain.contains '@' && !(s.data.any jsIsWs)

/-- Outcome of the register route: 201 with the signed token and the public
user object, 400 from the validators, or 409 when the email exists. -/
inductive RegisterResult where
  | created (token : JwtToken) (userId : Nat) (email : String)
      (users : List User)
  | validationError
  | conflict
deriving DecidableEq, Repr

/-- Handler of `POST /api/auth/register`: validate
(`body("email").isEmail()`, `body("password").isLength(\x7b min: 6 \x7d)`),
reject an already-registered email with 409, otherwise create the user
(`freshId` stands for the store-generated `_id`) and answer with
`sign(user)`. -/
def register (users : List User) (email password : String)
    (freshId now : Nat) (secret : String) : RegisterResult :=
  if !(isEmailLike email && 6 ≤ password.length) then .validationError
  else
    match users.find? (fun u => u.email = email) with
    | some _ => .conflict
    | none =>
      let u : User := { id := freshId, email := email
                        passwordHash := specHash password }
      .created (sign secret u.id u.email now) u.id u.email (users ++ [u])

/-! ## Helper lemmas -/

/-- A point update with an id-preserving function moves through `find?` by
id. -/
theorem find?_replaceById (db : List Summary) (id : Nat)
    (f : Summary → Summary) (hf : ∀ x, (f x).id = x.id) :
    (replaceById db id f).find? (fun r => r.id = id)
      = (db.find? (fun r => r.id = id)).map f := by
  induction db with
  | nil => rfl
  | cons x xs ih =>
    unfold replaceById at ih ⊢
    by_cases hx : x.id = id
    · rw [List.map_cons, if_pos hx,
        List.find?_cons_of_pos _ (by simp [hf x, hx]),
        List.find?_cons_of_pos _ (by simp [hx])]
      rfl
    · rw [List.map_cons, if_neg hx,
        List.find?_cons_of_neg _ (by simp [hx]),
        List.find?_cons_of_neg _ (by simp [hx])]
      exact ih

/-- Membership in a point-updated collection: an element either is the image
of a matching document, or is an untouched document with a different id. -/
theorem mem_replaceById {o : Summary} (db : List Summary) (id : Nat)
    (f : Summary → Summary)
    (ho : o ∈ replaceById db id f) :
    (∃ x, x ∈ db ∧ x.id = id ∧ o = f x) ∨ (o ∈ db ∧ o.id ≠ id) := by
  unfold replaceById at ho
  obtain ⟨x, hx, hfx⟩ := List.mem_map.mp ho
  by_cases h : x.id = id
  · exact Or.inl ⟨x, hx, h, by rw [← hfx, if_pos h]⟩
  · refine Or.inr ⟨?_, ?_⟩
    · rw [← hfx, if_neg h]; exact hx
    · rw [← hfx, if_neg h]; exact h

/-- Searching a slug that was just point-assigned finds exactly the image of
the document with the updated id, provided the slug was fresh. -/
theorem find?_slug_replaceById (db : List Summary) (id : Nat) (s : String)
    (hfresh : ∀ o ∈ db, o.slug ≠ some s) :
    (replaceById db id (fun x => { x with slug := some s })).find?
        (fun o => o.slug = some s)
      = (db.find? (fun x => x.id = id)).map
          (fun x => { x with slug := some s }) := by
  induction db with
  | nil => rfl
  | cons x xs ih =>
    unfold replaceById at ih ⊢
    have hx2 : x.slug ≠ some s := hfresh x (by simp)
    by_cases hx : x.id = id
    · rw [List.map_cons, if_pos hx,
        List.find?_cons_of_pos _ (by simp),
        List.find?_cons_of_pos _ (by simp [hx])]
      rfl
    · rw [List.map_cons, if_neg hx,
        List.find?_cons_of_neg _ (by simp [hx2]),
        List.find?_cons_of_neg _ (by simp [hx])]
      exact ih (fun o ho => hfresh o (by simp [ho]))

/-! ## Concrete fixtures used by witnesses and counterexamples -/

/-- A simple stored document used as a concrete fixture. -/
def wBase : Summary :=
  { id := 1, note := "hello world", summary := "hello", tags := ["t1"]
    starred := false, slug := none, createdAt := 100 }

/-! ## Claims -/

/-- C2: the claim says every created Summary carries an `ownerId` equal to
the creator's id, present in the stored document. The code contradicts
this: the create handler passes `userId: req.user.id` (not `ownerId`) to
`new Summary(...)`, and `summarySchema` declares neither `userId` nor
`ownerId`, so Mongoose strict mode drops the key — the stored keys of the
constructor argument are exactly `note`, `summary`, `tags`, and the stored
document is independent of which authenticated user created it. -/
theorem create_drops_owner :
    (strictKeptKeys createArgKeys = ["note", "summary", "tags"]
      ∧ (strictKeptKeys createArgKeys).contains "userId" = false
      ∧ summarySchemaPaths.contains "ownerId" = false)
    ∧ ∀ (db : List Summary) (b : CreateBody) (u1 u2 freshId now : Nat),
        createSummary db b u1 freshId now = createSummary db b u2 freshId now :=
  ⟨by decide, fun _ _ _ _ _ _ => rfl⟩

/-- C8: for a slug some stored document carries (slugs being unique, per the
schema's unique sparse index), `getBySlug` answers with exactly the
projection `\x7b note, summary, tags, createdAt \x7d` of that document —
a projection that is invariant under changing `id` or `slug`, hence leaks
neither — and for a slug carried by no document it answers the 404
branch (`none`). -/
theorem getBySlug_spec :
    (∀ (db : List Summary) (s : String) (r : Summary),
        r ∈ db → r.slug = some s →
        (∀ r1 ∈ db, ∀ r2 ∈ db, r1.slug = some s → r2.slug = some s → r1 = r2) →
        getBySlug db s = some (toPublicView r))
    ∧ (∀ (db : List Summary) (s : String),
        (∀ o ∈ db, o.slug ≠ some s) → getBySlug db s = none)
    ∧ (∀ (d : Summary) (id2 : Nat) (sl : Option String),
        toPublicView { d with id := id2, slug := sl } = toPublicView d) := by
  refine ⟨?_, ?_, fun _ _ _ => rfl⟩
  · intro db s r hmem hslug huniq
    have hex : (db.find? (fun o => o.slug = some s)).isSome := by
      rw [List.find?_isSome]
      exact ⟨r, hmem, by simp [hslug]⟩
    obtain ⟨r2, hr2⟩ := Option.isSome_iff_exists.mp hex
    have hr2mem : r2 ∈ db := List.mem_of_find?_eq_some hr2
    have hr2slug : r2.slug = some s := by
      have := List.find?_some hr2
      simpa using this
    have : r2 = r := huniq r2 hr2mem r hmem hr2slug hslug
    unfold getBySlug
    rw [hr2, this]
    rfl
  · intro db s hnone
    unfold getBySlug
    rw [List.find?_eq_none.mpr (fun o ho => by simpa using hnone o ho)]
    rfl

/-- C8 witness: a concrete collection where the shared document resolves to
its restricted projection and an unused slug yields the 404 branch. -/
theorem getBySlug_spec_witness :
    getBySlug [{ wBase with slug := some "abcdefghij" }] "abcdefghij"
        = some (toPublicView { wBase with slug := some "abcdefghij" })
      ∧ getBySlug [{ wBase with slug := some "abcdefghij" }] "zzzzzzzzzz" = none :=
  ⟨getBySlug_spec.1 [{ wBase with slug := some "abcdefghij" }] "abcdefghij"
      { wBase with slug := some "abcdefghij" } (by decide) (by decide)
      (by decide),
    getBySlug_spec.2.1 [{ wBase with slug := some "abcdefghij" }] "zzzzzzzzzz"
      (by decide)⟩

/-- C9: on an existing document, a star PATCH without a `starred` key
toggles the flag, a second such call restores it, a boolean `starred` sets
the flag to exactly that value, and a star PATCH on an absent id is 404. -/
theorem patchStar_toggle_and_set (db : List Summary) (id : Nat) (r : Summary)
    (hfind : db.find? (fun x => x.id = id) = some r) :
    patchStar db id none
        = ApiOutcome.ok { r with starred := !r.starred }
            (replaceById db id (fun x => { x with starred := !r.starred }))
      ∧ patchStar (replaceById db id (fun x => { x with starred := !r.starred }))
            id none
        = ApiOutcome.ok r
            (replaceById (replaceById db id (fun x => { x with starred := !r.starred }))
              id (fun x => { x with starred := r.starred }))
      ∧ (∀ b : Bool, patchStar db id (some (JValue.bool b))
          = ApiOutcome.ok { r with starred := b }
              (replaceById db id (fun x => { x with starred := b })))
      ∧ (∀ (db2 : List Summary) (id2 : Nat) (body : Option JValue),
          db2.find? (fun x => x.id = id2) = none →
          patchStar db2 id2 body = ApiOutcome.notFound) := by
  have hfind2 :
      (replaceById db id (fun x => { x with starred := !r.starred })).find?
          (fun x => x.id = id)
        = some { r with starred := !r.starred } := by
    rw [find?_replaceById db id (fun x => { x with starred := !r.starred })
        (fun x => rfl), hfind]
    rfl
  refine ⟨?_, ?_, ?_, ?_⟩
  · unfold patchStar
    rw [hfind]
  · unfold patchStar
    rw [hfind2]
    simp [Bool.not_not]
  · intro b
    unfold patchStar
    rw [hfind]
    rfl
  · intro db2 id2 body h
    unfold patchStar
    rw [h]

/-- C9 witness: on a concrete singleton collection, the first bodiless star
PATCH sets `starred` to true, the second restores the original document,
an explicit boolean sets the flag, and an absent id is 404. -/
theorem patchStar_toggle_and_set_witness :
    patchStar [wBase] 1 none
        = ApiOutcome.ok { wBase with starred := true }
            (replaceById [wBase] 1 (fun x => { x with starred := !wBase.starred }))
      ∧ patchStar (replaceById [wBase] 1 (fun x => { x with starred := !wBase.starred }))
            1 none
        = ApiOutcome.ok wBase
            (replaceById (replaceById [wBase] 1 (fun x => { x with starred := !wBase.starred }))
              1 (fun x => { x with starred := wBase.starred }))
      ∧ patchStar [wBase] 1 (some (JValue.bool true))
        = ApiOutcome.ok { wBase with starred := true }
            (replaceById [wBase] 1 (fun x => { x with starred := true }))
      ∧ patchStar [wBase] 99 none = ApiOutcome.notFound := by
  have h := patchStar_toggle_and_set [wBase] 1 wBase (by decide)
  exact ⟨h.1, h.2.1, h.2.2.1 true, h.2.2.2 [wBase] 99 none (by decide)⟩

/-- Discriminator for the 400 produced by a validator chain; the star route
has no validators, which C10 expresses as this never being the outcome. -/
def isValidationError : ApiOutcome → Bool
  | .validationError => true
  | _ => false

/-- C10: the star endpoint validates nothing and coerces with JS
truthiness: `starred: null` behaves exactly like an omitted field
(toggles), any truthy non-boolean — including the string `"false"` — sets
the flag to true, falsy values such as `0` and `""` set it to false, and no
body whatsoever produces a `ValidationError`. -/
theorem patchStar_truthiness (db : List Summary) (id : Nat) (r : Summary)
    (hfind : db.find? (fun x => x.id = id) = some r) :
    patchStar db id (some JValue.null) = patchStar db id none
      ∧ patchStar db id (some (JValue.str "false"))
        = ApiOutcome.ok { r with starred := true }
            (replaceById db id (fun x => { x with starred := true }))
      ∧ (∀ v : JValue, v ≠ JValue.null → jsTruthy v = true →
          patchStar db id (some v)
            = ApiOutcome.ok { r with starred := true }
                (replaceById db id (fun x => { x with starred := true })))
      ∧ patchStar db id (some (JValue.num 0))
        = ApiOutcome.ok { r with starred := false }
            (replaceById db id (fun x => { x with starred := false }))
      ∧ patchStar db id (some (JValue.str ""))
        = ApiOutcome.ok { r with starred := false }
            (replaceById db id (fun x => { x with starred := false }))
      ∧ (∀ (db2 : List Summary) (id2 : Nat) (body : Option JValue),
          isValidationError (patchStar db2 id2 body) = false) := by
  refine ⟨?_, ?_, ?_, ?_, ?_, ?_⟩
  · unfold patchStar
    cases db.find? (fun x => x.id = id) <;> rfl
  · unfold patchStar
    rw [hfind]
    rfl
  · intro v hv ht
    unfold patchStar
    rw [hfind]
    cases v with
    | null => exact absurd rfl hv
    | bool b => simpa using congrArg (fun z => ApiOutcome.ok { r with starred := z }
        (replaceById db id (fun x => { x with starred := z }))) ht
    | num n => simpa using congrArg (fun z => ApiOutcome.ok { r with starred := z }
        (replaceById db id (fun x => { x with starred := z }))) ht
    | str s => simpa using congrArg (fun z => ApiOutcome.ok { r with starred := z }
        (replaceById db id (fun x => { x with starred := z }))) ht
    | arr xs => rfl
  · unfold patchStar
    rw [hfind]
    rfl
  · unfold patchStar
    rw [hfind]
    rfl
  · intro db2 id2 body
    unfold patchStar
    cases h2 : db2.find? (fun x => x.id = id2) <;> rfl

/-- C10 witness: the truthiness coercions on a concrete document: `null`
toggles like an omitted key, `"false"` and the number `2` set the flag to
true, `0` and the empty string set it to false, and no validation error
arises. -/
theorem patchStar_truthiness_witness :
    patchStar [wBase] 1 (some JValue.null) = patchStar [wBase] 1 none
      ∧ patchStar [wBase] 1 (some (JValue.str "false"))
        = ApiOutcome.ok { wBase with starred := true }
            (replaceById [wBase] 1 (fun x => { x with starred := true }))
      ∧ patchStar [wBase] 1 (some (JValue.num 2))
        = ApiOutcome.ok { wBase with starred := true }
            (replaceById [wBase] 1 (fun x => { x with starred := true }))
      ∧ patchStar [wBase] 1 (some (JValue.num 0))
        = ApiOutcome.ok { wBase with starred := false }
            (replaceById [wBase] 1 (fun x => { x with starred := false }))
      ∧ patchStar [wBase] 1 (some (JValue.str ""))
        = ApiOutcome.ok { wBase with starred := false }
            (replaceById [wBase] 1 (fun x => { x with starred := false }))
      ∧ isValidationError (patchStar [wBase] 1 (some (JValue.arr ["x"]))) = false := by
  have h := patchStar_truthiness [wBase] 1 wBase (by decide)
  exact ⟨h.1, h.2.1, h.2.2.1 (JValue.num 2) (by decide) (by decide), h.2.2.2.1,
    h.2.2.2.2.1, h.2.2.2.2.2 [wBase] 1 (some (JValue.arr ["x"]))⟩

/-- C6: sharing an existing document twice with two fresh 10-character
generated slugs (the `nanoid(10)` oracle outputs) succeeds both times; after
the second share the second slug resolves through `getBySlug` to the
document's public view while the first, distinct slug no longer resolves
(single active slug per record); share on an absent id is 404. -/
theorem share_single_active_slug (db : List Summary) (id : Nat) (r : Summary)
    (s1 s2 : String)
    (hfind : db.find? (fun x => x.id = id) = some r)
    (hlen1 : s1.length = 10) (hlen2 : s2.length = 10) (hne : s1 ≠ s2)
    (hfresh1 : ∀ o ∈ db, o.slug ≠ some s1)
    (hfresh2 : ∀ o ∈ db, o.slug ≠ some s2) :
    share db id s1
        = ApiOutcome.ok { r with slug := some s1 }
            (replaceById db id (fun x => { x with slug := some s1 }))
      ∧ share (replaceById db id (fun x => { x with slug := some s1 })) id s2
        = ApiOutcome.ok { r with slug := some s2 }
            (replaceById (replaceById db id (fun x => { x with slug := some s1 }))
              id (fun x => { x with slug := some s2 }))
      ∧ getBySlug (replaceById (replaceById db id (fun x => { x with slug := some s1 }))
            id (fun x => { x with slug := some s2 })) s2
        = some (toPublicView r)
      ∧ getBySlug (replaceById (replaceById db id (fun x => { x with slug := some s1 }))
            id (fun x => { x with slug := some s2 })) s1
        = none
      ∧ s1.length = 10 ∧ s2.length = 10 ∧ s1 ≠ s2
      ∧ (∀ (db3 : List Summary) (id3 : Nat) (s3 : String),
          db3.find? (fun x => x.id = id3) = none →
          share db3 id3 s3 = ApiOutcome.notFound) := by
  have hany1 : db.any (fun o => o.id ≠ id && o.slug = some s1) = false := by
    rw [List.any_eq_false]
    intro o ho
    simp only [Bool.and_eq_true, decide_eq_true_eq, not_and, ne_eq,
      Bool.not_eq_true, decide_eq_false_iff_not]
    intro _
    exact hfresh1 o ho
  have hfind1 :
      (replaceById db id (fun x => { x with slug := some s1 })).find?
          (fun x => x.id = id) = some { r with slug := some s1 } := by
    rw [find?_replaceById db id (fun x => { x with slug := some s1 })
        (fun x => rfl), hfind]
    rfl
  have hfreshdb1 : ∀ o ∈ replaceById db id (fun x => { x with slug := some s1 }),
      o.slug ≠ some s2 := by
    intro o ho
    rcases mem_replaceById db id _ ho with ⟨x, _, _, hox⟩ | ⟨hodb, _⟩
    · rw [hox]
      simpa using fun h => hne h
    · exact hfresh2 o hodb
  have hany2 : (replaceById db id (fun x => { x with slug := some s1 })).any
      (fun o => o.id ≠ id && o.slug = some s2) = false := by
    rw [List.any_eq_false]
    intro o ho
    simp only [Bool.and_eq_true, decide_eq_true_eq, not_and, ne_eq,
      Bool.not_eq_true, decide_eq_false_iff_not]
    intro _
    exact hfreshdb1 o ho
  refine ⟨?_, ?_, ?_, ?_, hlen1, hlen2, hne, ?_⟩
  · unfold share
    rw [hfind, hany1]
    rfl
  · unfold share
    rw [hfind1, hany2]
    rfl
  · unfold getBySlug
    rw [find?_slug_replaceById _ id s2 hfreshdb1, hfind1]
    rfl
  · unfold getBySlug
    rw [List.find?_eq_none.mpr ?_]
    · rfl
    · intro o ho
      simp only [decide_eq_true_eq]
      rcases mem_replaceById _ id _ ho with ⟨x, hx1, hx2, hox⟩ | ⟨hodb1, hoid⟩
      · rw [hox]
        simpa using fun h => hne h.symm
      · rcases mem_replaceById db id _ hodb1 with ⟨y, _, hy2, hoy⟩ | ⟨hodb, _⟩
        · exact absurd (by rw [hoy]; exact hy2) hoid
        · exact hfresh1 o hodb
  · intro db3 id3 s3 h
    unfold share
    rw [h]

/-- C6 witness: a concrete document shared twice with two distinct fresh
10-character slugs; the second resolves, the first does not, and an absent
id is 404. -/
theorem share_single_active_slug_witness :
    share [wBase] 1 "abcdefghij"
        = ApiOutcome.ok { wBase with slug := some "abcdefghij" }
            (replaceById [wBase] 1 (fun x => { x with slug := some "abcdefghij" }))
      ∧ share (replaceById [wBase] 1 (fun x => { x with slug := some "abcdefghij" })) 1
            "KLMNOPQRST"
        = ApiOutcome.ok { wBase with slug := some "KLMNOPQRST" }
            (replaceById (replaceById [wBase] 1 (fun x => { x with slug := some "abcdefghij" }))
              1 (fun x => { x with slug := some "KLMNOPQRST" }))
      ∧ getBySlug (replaceById (replaceById [wBase] 1 (fun x => { x with slug := some "abcdefghij" }))
            1 (fun x => { x with slug := some "KLMNOPQRST" })) "KLMNOPQRST"
        = some (toPublicView wBase)
      ∧ getBySlug (replaceById (replaceById [wBase] 1 (fun x => { x with slug := some "abcdefghij" }))
            1 (fun x => { x with slug := some "KLMNOPQRST" })) "abcdefghij"
        = none
      ∧ share [wBase] 42 "0123456789" = ApiOutcome.notFound := by
  have h := share_single_active_slug [wBase] 1 wBase "abcdefghij" "KLMNOPQRST"
    (by decide) (by decide) (by decide) (by decide) (by decide) (by decide)
  exact ⟨h.1, h.2.1, h.2.2.1, h.2.2.2.1,
    h.2.2.2.2.2.2.2 [wBase] 42 "0123456789" (by decide)⟩

/-- C1 counterexample: the claim says `createdAt` keeps its creation-time
value after any update and `slug` is not reassignable through the update
operation. On the code, a PUT body containing `createdAt` (or `slug`) —
both schema paths, neither validated — is forwarded wholesale to
`findByIdAndUpdate`, which overwrites them: here an update changes
`createdAt` from 100 to 200, and another reassigns the slug. -/
theorem update_mass_assignment_counterexample :
    updateSummary [wBase] 1 { createdAt := some 200 }
        = ApiOutcome.ok { wBase with createdAt := 200 }
            [{ wBase with createdAt := 200 }]
      ∧ ({ wBase with createdAt := 200 }).createdAt ≠ wBase.createdAt
      ∧ updateSummary [wBase] 1 { slug := some "hijacked00" }
        = ApiOutcome.ok { wBase with slug := some "hijacked00" }
            [{ wBase with slug := some "hijacked00" }]
      ∧ ({ wBase with slug := some "hijacked00" }).slug ≠ wBase.slug := by
  decide

/-- C1 (amended): an authenticated update changes exactly the schema paths
present in the body — `note`, `summary`, `tags`, `starred` as the spec
says, but also `slug` and `createdAt`, which are therefore reassignable;
paths absent from the body keep their stored values, and keys outside the
schema (such as `ownerId` or `userId`, here the `extraKeys` of the body)
have no effect whatsoever on the outcome. -/
theorem update_frame (db : List Summary) (id : Nat) (b : UpdateBody)
    (r : Summary)
    (hfind : db.find? (fun x => x.id = id) = some r)
    (hval : validUpdateBody b = true)
    (hslug : (match b.slug with
        | none => false
        | some s => db.any (fun o => o.id ≠ id && o.slug = some s)) = false) :
    updateSummary db id b
        = ApiOutcome.ok (applyUpdate r b)
            (replaceById db id (fun x => applyUpdate x b))
      ∧ (applyUpdate r b).id = r.id
      ∧ (applyUpdate r b).note = b.note.getD r.note
      ∧ (applyUpdate r b).summary = b.summary.getD r.summary
      ∧ (applyUpdate r b).tags
          = (b.tags.map (fun ts => ts.map jsTrim)).getD r.tags
      ∧ (applyUpdate r b).starred = b.starred.getD r.starred
      ∧ (applyUpdate r b).slug = (b.slug.map some).getD r.slug
      ∧ (applyUpdate r b).createdAt = b.createdAt.getD r.createdAt
      ∧ (b.createdAt = none → (applyUpdate r b).createdAt = r.createdAt)
      ∧ (b.slug = none → (applyUpdate r b).slug = r.slug)
      ∧ (∀ ks : List String,
          updateSummary db id { b with extraKeys := ks } = updateSummary db id b) := by
  refine ⟨?_, rfl, rfl, rfl, rfl, rfl, rfl, rfl, ?_, ?_, fun ks => rfl⟩
  · unfold updateSummary
    rw [hval, hfind, hslug]
    rfl
  · intro h
    unfold applyUpdate
    rw [h]
    rfl
  · intro h
    unfold applyUpdate
    rw [h]
    rfl

/-- C1 witness: a concrete update that changes `note`, carries the
non-schema key `ownerId`, and leaves `createdAt` and `slug` at their stored
values because the body does not supply them; the extra key has no
effect. -/
theorem update_frame_witness :
    updateSummary [wBase] 1 { note := some "updated note" }
        = ApiOutcome.ok (applyUpdate wBase { note := some "updated note" })
            (replaceById [wBase] 1 (fun x => applyUpdate x { note := some "updated note" }))
      ∧ (applyUpdate wBase { note := some "updated note" }).createdAt = wBase.createdAt
      ∧ (applyUpdate wBase { note := some "updated note" }).slug = wBase.slug
      ∧ updateSummary [wBase] 1
            { note := some "updated note", extraKeys := ["ownerId"] }
          = updateSummary [wBase] 1 { note := some "updated note" } := by
  have h := update_frame [wBase] 1 { note := some "updated note" } wBase
    (by decide) (by decide) (by decide)
  exact ⟨h.1, h.2.2.2.2.2.2.2.2.1 rfl, h.2.2.2.2.2.2.2.2.2.1 rfl,
    h.2.2.2.2.2.2.2.2.2.2 ["ownerId"]⟩

/-! ## Whitespace-trimming lemmas (for the tags invariant) -/

theorem trimLeading_idem (l : List Char) :
    trimLeading (trimLeading l) = trimLeading l := by
  induction l with
  | nil => rfl
  | cons c cs ih =>
    by_cases h : jsIsWs c = true
    · rw [trimLeading, if_pos h]
      exact ih
    · rw [trimLeading, if_neg h, trimLeading, if_neg h]

theorem trimLeading_no_ws_head (l : List Char) (c : Char) (cs : List Char)
    (h : trimLeading l = c :: cs) : jsIsWs c = false := by
  induction l with
  | nil => exact absurd h (by simp [trimLeading])
  | cons x xs ih =>
    by_cases hx : jsIsWs x = true
    · rw [trimLeading, if_pos hx] at h
      exact ih h
    · rw [trimLeading, if_neg hx] at h
      cases h
      simpa using hx

theorem trimLeading_append_nonws (xs : List Char) (c : Char)
    (h : jsIsWs c = false) :
    trimLeading (xs ++ [c]) = trimLeading xs ++ [c] := by
  induction xs with
  | nil => simp [trimLeading, h]
  | cons x xs ih =>
    by_cases hx : jsIsWs x = true
    · rw [List.cons_append, trimLeading, if_pos hx, trimLeading, if_pos hx]
      exact ih
    · rw [List.cons_append, trimLeading, if_neg hx, trimLeading, if_neg hx,
        List.cons_append]

theorem trimTrailing_cons_nonws (c : Char) (cs : List Char)
    (h : jsIsWs c = false) :
    trimTrailing (c :: cs) = c :: trimTrailing cs := by
  unfold trimTrailing
  rw [List.reverse_cons, trimLeading_append_nonws _ c h, List.reverse_append]
  rfl

theorem trimTrailing_idem (l : List Char) :
    trimTrailing (trimTrailing l) = trimTrailing l := by
  unfold trimTrailing
  rw [List.reverse_reverse, trimLeading_idem]

theorem jsTrim_idem (s : String) : jsTrim (jsTrim s) = jsTrim s := by
  unfold jsTrim
  show String.mk (trimTrailing (trimLeading (trimTrailing (trimLeading s.data))))
      = String.mk (trimTrailing (trimLeading s.data))
  cases hm : trimLeading s.data with
  | nil => rfl
  | cons c cs =>
    have hc : jsIsWs c = false := trimLeading_no_ws_head _ _ _ hm
    rw [trimTrailing_cons_nonws c cs hc, trimLeading, if_neg (by simp [hc]),
      ← trimTrailing_cons_nonws c cs hc, trimTrailing_idem]

/-- C4 counterexample: the claim says after every operation each stored tag
is trimmed and non-empty. On the code, the update route validates only that
`tags` is an array of at most 10 entries; a whitespace-only tag passes,
Mongoose trims it to the empty string, and the empty string is stored. -/
theorem update_empty_tag_counterexample :
    updateSummary [wBase] 1 { tags := some ["  "] }
        = ApiOutcome.ok { wBase with tags := [""] } [{ wBase with tags := [""] }]
      ∧ "" ∈ ({ wBase with tags := [""] }).tags := by
  decide

/-- C4 (amended): after a create, every stored document's tags are at most
10, trimmed and non-empty (assuming the prior collection satisfied this);
after an update, only the bound of 10 and trimmedness are maintained — an
update may store empty-string tags, because the cleaning line
(`.filter(Boolean)`) runs only in the create handler. -/
theorem tags_invariant :
    (∀ (db : List Summary) (b : CreateBody) (uid fid now : Nat)
        (doc : Summary) (db2 : List Summary),
        (∀ o ∈ db, o.tags.length ≤ 10 ∧ ∀ t ∈ o.tags, jsTrim t = t ∧ t ≠ "") →
        createSummary db b uid fid now = ApiOutcome.ok doc db2 →
        (doc.tags.length ≤ 10 ∧ ∀ t ∈ doc.tags, jsTrim t = t ∧ t ≠ "")
          ∧ ∀ o ∈ db2, o.tags.length ≤ 10 ∧ ∀ t ∈ o.tags, jsTrim t = t ∧ t ≠ "")
    ∧ (∀ (db : List Summary) (id : Nat) (b : UpdateBody)
        (doc : Summary) (db2 : List Summary),
        (∀ o ∈ db, o.tags.length ≤ 10 ∧ ∀ t ∈ o.tags, jsTrim t = t) →
        updateSummary db id b = ApiOutcome.ok doc db2 →
        (doc.tags.length ≤ 10 ∧ ∀ t ∈ doc.tags, jsTrim t = t)
          ∧ ∀ o ∈ db2, o.tags.length ≤ 10 ∧ ∀ t ∈ o.tags, jsTrim t = t) := by
  have hclean : ∀ ts : List String,
      (cleanTags ts).length ≤ 10
        ∧ ∀ t ∈ cleanTags ts, jsTrim t = t ∧ t ≠ "" := by
    intro ts
    constructor
    · calc (cleanTags ts).length
          ≤ 10 ⊓ ((ts.map jsTrim).filter (fun t => t ≠ "")).length := by
            rw [cleanTags, List.length_take]
        _ ≤ 10 := min_le_left _ _
    · intro t ht
      unfold cleanTags at ht
      have ht2 := List.mem_of_mem_take ht
      have ht3 := List.mem_filter.mp ht2
      obtain ⟨x, _, hx⟩ := List.mem_map.mp ht3.1
      refine ⟨?_, by simpa using ht3.2⟩
      rw [← hx, jsTrim_idem]
  have hupd : ∀ (r : Summary) (b : UpdateBody),
      validUpdateBody b = true →
      (r.tags.length ≤ 10 ∧ ∀ t ∈ r.tags, jsTrim t = t) →
      ((applyUpdate r b).tags.length ≤ 10
        ∧ ∀ t ∈ (applyUpdate r b).tags, jsTrim t = t) := by
    intro r b hval hr
    cases hb : b.tags with
    | none =>
      unfold applyUpdate
      rw [hb]
      exact hr
    | some ts =>
      have hlen : ts.length ≤ 10 := by
        unfold validUpdateBody at hval
        rw [hb] at hval
        simp only [Bool.and_eq_true, decide_eq_true_eq] at hval
        exact hval.2
      unfold applyUpdate
      rw [hb]
      constructor
      · simpa using hlen
      · intro t ht
        obtain ⟨x, _, hx⟩ := List.mem_map.mp ht
        rw [← hx, jsTrim_idem]
  constructor
  · intro db b uid fid now doc db2 hdb hok
    unfold createSummary at hok
    by_cases hv : validCreateBody b
    · rw [if_neg (by simp [hv])] at hok
      obtain ⟨hdoc, hdb2⟩ := (ApiOutcome.ok.injEq _ _ _ _).mp hok
      have hdocTags : (doc.tags.length ≤ 10
          ∧ ∀ t ∈ doc.tags, jsTrim t = t ∧ t ≠ "") := by
        rw [← hdoc]
        exact hclean (b.tags.getD [])
      refine ⟨hdocTags, ?_⟩
      intro o ho
      rw [← hdb2] at ho
      rcases List.mem_append.mp ho with h | h
      · exact hdb o h
      · rw [List.mem_singleton.mp h, hdoc]
        exact hdocTags
    · rw [if_pos (by simp [hv])] at hok
      exact absurd hok (by simp)
  · intro db id b doc db2 hdb hok
    unfold updateSummary at hok
    by_cases hv : validUpdateBody b
    · rw [if_neg (by simp [hv])] at hok
      split at hok
      · exact absurd hok (by simp)
      · rename_i r hf
        split at hok
        · exact absurd hok (by simp)
        · obtain ⟨hdoc, hdb2⟩ := (ApiOutcome.ok.injEq _ _ _ _).mp hok
          have hr : r ∈ db := List.mem_of_find?_eq_some hf
          have hdocTags : doc.tags.length ≤ 10 ∧ ∀ t ∈ doc.tags, jsTrim t = t := by
            rw [← hdoc]
            exact hupd r b hv (hdb r hr)
          refine ⟨hdocTags, ?_⟩
          intro o ho
          rw [← hdb2] at ho
          rcases mem_replaceById db id _ ho with ⟨x, hx1, _, hox⟩ | ⟨h1, _⟩
          · rw [hox]
            exact hupd x b hv (hdb x hx1)
          · exact hdb o h1
    · rw [if_pos (by simp [hv])] at hok
      exact absurd hok (by simp)

/-- Concrete create request used by the C4 witness. -/
def c4CreateBody : CreateBody :=
  { note := "hello world", summary := "hello", tags := some ["t1", " ", " t2 "] }

/-- The document the concrete C4 create stores: tags trimmed, the
whitespace-only entry removed. -/
def c4CreateDoc : Summary :=
  { id := 5, note := "hello world", summary := "hello", tags := ["t1", "t2"]
    starred := false, slug := none, createdAt := 50 }

/-- C4 witness: the concrete create yields cleaned tags satisfying the full
invariant, and a concrete update with a padded tag keeps the bound and
trimmedness. -/
theorem tags_invariant_witness :
    (c4CreateDoc.tags.length ≤ 10
        ∧ ∀ t ∈ c4CreateDoc.tags, jsTrim t = t ∧ t ≠ "")
      ∧ (({ wBase with tags := ["a"] } : Summary).tags.length ≤ 10
        ∧ ∀ t ∈ ({ wBase with tags := ["a"] } : Summary).tags, jsTrim t = t) :=
  ⟨(tags_invariant.1 [] c4CreateBody 7 5 50 c4CreateDoc [c4CreateDoc]
      (by decide) (by decide)).1,
    (tags_invariant.2 [wBase] 1 { tags := some [" a "] }
      { wBase with tags := ["a"] } [{ wBase with tags := ["a"] }]
      (by decide) (by decide)).1⟩

/-- C7: a valid registration (well-formed email, password of at least 6
characters, email not yet registered) answers with the token signed for the
fresh user; that token carries the user's id and email, expires exactly 900
seconds (15 minutes) after issuance, verifies through the auth middleware
to the registered identity at any time before expiry, and verification of
an expired token or of a token whose signature does not bind its payload to
the server secret (tampered) is rejected as Unauthorized. -/
theorem register_token_roundtrip (users : List User) (email password : String)
    (freshId now : Nat) (secret : String)
    (hemail : isEmailLike email = true) (hpw : 6 ≤ password.length)
    (hnew : users.find? (fun u => u.email = email) = none) :
    register users email password freshId now secret
        = RegisterResult.created (sign secret freshId email now) freshId email
            (users ++ [{ id := freshId, email := email
                         passwordHash := specHash password }])
      ∧ (sign secret freshId email now).payload.email = email
      ∧ (sign secret freshId email now).payload.id = freshId
      ∧ (sign secret freshId email now).payload.iat = now
      ∧ (sign secret freshId email now).payload.exp = now + 900
      ∧ (∀ t : Nat, t < now + 900 →
          verifyJWT secret (some (sign secret freshId email now)) t
            = AuthResult.authed freshId email)
      ∧ (∀ t : Nat, now + 900 ≤ t →
          verifyJWT secret (some (sign secret freshId email now)) t
            = AuthResult.unauthorized)
      ∧ (∀ (tok : JwtToken) (t : Nat), tok.sig ≠ (tok.payload, secret) →
          verifyJWT secret (some tok) t = AuthResult.unauthorized) := by
  refine ⟨?_, rfl, rfl, rfl, rfl, ?_, ?_, ?_⟩
  · unfold register
    rw [if_neg (by simp [hemail, hpw]), hnew]
  · intro t ht
    have hv : jwtVerify secret (sign secret freshId email now) t
        = some { id := freshId, email := email, iat := now, exp := now + 900 } := by
      unfold jwtVerify sign
      rw [if_pos ⟨rfl, ht⟩]
    simp only [verifyJWT, hv]
  · intro t ht
    have hv : jwtVerify secret (sign secret freshId email now) t = none := by
      unfold jwtVerify sign
      rw [if_neg (fun hcon =>
        absurd hcon.2 (show ¬ t < now + 900 by omega))]
    simp only [verifyJWT, hv]
  · intro tok t hsig
    have hv : jwtVerify secret tok t = none := by
      unfold jwtVerify
      rw [if_neg (fun hcon => hsig hcon.1)]
    simp only [verifyJWT, hv]

/-- A token whose signature was made with a different secret, used by the
C7 witness as the tampered example. -/
def tamperedTok : JwtToken :=
  { payload := { id := 1, email := "a@b.com", iat := 0, exp := 900 }
    sig := ({ id := 1, email := "a@b.com", iat := 0, exp := 900 }, "other") }

/-- C7 witness: registering `a@b.com` with password `secret1` at time 0
yields the signed token; the middleware accepts it at time 899 with the
registered identity, rejects it at time 900 (expired), and rejects the
concrete tampered token. -/
theorem register_token_roundtrip_witness :
    register [] "a@b.com" "secret1" 1 0 "server-secret"
        = RegisterResult.created (sign "server-secret" 1 "a@b.com" 0) 1 "a@b.com"
            [{ id := 1, email := "a@b.com", passwordHash := specHash "secret1" }]
      ∧ verifyJWT "server-secret" (some (sign "server-secret" 1 "a@b.com" 0)) 899
          = AuthResult.authed 1 "a@b.com"
      ∧ verifyJWT "server-secret" (some (sign "server-secret" 1 "a@b.com" 0)) 900
          = AuthResult.unauthorized
      ∧ verifyJWT "server-secret" (some tamperedTok) 10
          = AuthResult.unauthorized := by
  have h := register_token_roundtrip [] "a@b.com" "secret1" 1 0 "server-secret"
    (by decide) (by decide) (by decide)
  exact ⟨h.1, h.2.2.2.2.2.1 899 (by decide), h.2.2.2.2.2.2.1 900 (by decide),
    h.2.2.2.2.2.2.2 tamperedTok 10 (by decide)⟩

/-! ## Pagination lemmas -/

/-- One step of the ceiling division used for `pages`. -/
theorem ceilDiv_succ (n L : Nat) (hL : 0 < L) (hn : 0 < n) :
    ceilDiv n L = ceilDiv (n - L) L + 1 := by
  unfold ceilDiv
  have h1 : n + L - 1 = (n - 1) + L := by omega
  rw [h1, Nat.add_div_right _ hL]
  congr 1
  rcases Nat.le_total n L with h | h
  · have e1 : n - L = 0 := by omega
    rw [e1, Nat.div_eq_of_lt (by omega), Nat.div_eq_of_lt (by omega)]
  · rw [show n - L + L - 1 = n - 1 by omega]

/-- Splitting a list into `ceilDiv length L` consecutive chunks of `L` and
concatenating them restores the list. -/
theorem chunks_flatten (L : Nat) (hL : 0 < L) :
    ∀ (k : Nat) (l : List Summary), ceilDiv l.length L = k →
      ((List.range k).map (fun i => (l.drop (i * L)).take L)).flatten = l := by
  intro k
  induction k with
  | zero =>
    intro l hl
    have h0 : l.length = 0 := by
      rcases Nat.eq_zero_or_pos l.length with h | h
      · exact h
      · exfalso
        unfold ceilDiv at hl
        have h1 : 1 ≤ (l.length + L - 1) / L :=
          (Nat.le_div_iff_mul_le hL).mpr (by omega)
        omega
    rw [List.length_eq_zero.mp h0]
    rfl
  | succ k ih =>
    intro l hl
    have hn : 0 < l.length := by
      rcases Nat.eq_zero_or_pos l.length with h | h
      · exfalso
        unfold ceilDiv at hl
        rw [h, Nat.zero_add, Nat.div_eq_of_lt (by omega)] at hl
        exact Nat.succ_ne_zero k hl.symm
      · exact h
    have hstep := ceilDiv_succ l.length L hL hn
    rw [hl] at hstep
    have hk : ceilDiv (l.length - L) L = k := by omega
    have ih2 := ih (l.drop L) (by rw [List.length_drop]; exact hk)
    rw [List.range_succ_eq_map, List.map_cons, List.flatten_cons, List.map_map]
    have hmap : (List.range k).map ((fun i => (l.drop (i * L)).take L) ∘ Nat.succ)
        = (List.range k).map (fun i => ((l.drop L).drop (i * L)).take L) := by
      apply List.map_congr_left
      intro i _
      simp only [Function.comp]
      rw [List.drop_drop,
        show Nat.succ i * L = L + i * L from by rw [Nat.succ_mul, Nat.add_comm]]
    rw [hmap, ih2, Nat.zero_mul, List.drop_zero, List.take_append_drop]

/-- The documents matching the compiled filter (the two branches of the
handler's filter construction). -/
def matchedDocs (db : List Summary) (pat2 : Option Reg) :
    List Summary :=
  match pat2 with
  | none => db
  | some p => db.filter (fun r => summaryMatches p r)

/-- Reduction of the list handler once the compiled filter is known. -/
theorem listSummaries_eq (db : List Summary) (q sort : String)
    (pat2 : Option Reg)
    (hpat : (if jsTrim q = "" then some none
        else (compileRegex (jsTrim q)).map some) = some pat2)
    (page limit : Int) :
    listSummaries db q page limit sort =
      (if page > 0 && limit > 0 then
        ListResult.paged
          (((sortSummaries sort (matchedDocs db pat2)).drop
            ((page - 1).toNat * limit.toNat)).take limit.toNat)
          page.toNat
          (ceilDiv (sortSummaries sort (matchedDocs db pat2)).length
            limit.toNat)
          (sortSummaries sort (matchedDocs db pat2)).length
      else
        ListResult.plain (sortSummaries sort (matchedDocs db pat2))) := by
  simp only [listSummaries]
  rw [hpat]
  rfl

/-- C5: write `l` for the full filtered, sorted sequence (what the endpoint
answers in plain-array mode, i.e. with `page`/`limit` absent, which the
handler coerces to 0). Then for positive `page` and `limit`, the endpoint
answers the envelope whose `total` is the number of matches, whose `pages`
is `ceil(total / limit)`, and whose `items` are the `page`-th `limit`-sized
chunk of `l`, so the chunks of pages `1..pages` concatenate back to exactly
`l`; and whenever `page` or `limit` is non-positive (absent, zero, negative
or non-numeric), the endpoint answers the complete ordered sequence `l`
instead. -/
theorem list_pagination (db : List Summary) (q sort : String)
    (l : List Summary)
    (h : listSummaries db q 0 0 sort = ListResult.plain l) :
    (∀ p L : Nat, 0 < p → 0 < L →
        listSummaries db q (p : Int) (L : Int) sort
          = ListResult.paged ((l.drop ((p - 1) * L)).take L) p
              (ceilDiv l.length L) l.length)
      ∧ (∀ L : Nat, 0 < L →
          ((List.range (ceilDiv l.length L)).map
              (fun i => (l.drop (i * L)).take L)).flatten = l)
      ∧ (∀ page limit : Int, ¬(0 < page ∧ 0 < limit) →
          listSummaries db q page limit sort = ListResult.plain l) := by
  cases hpat : (if jsTrim q = "" then some none
      else (compileRegex (jsTrim q)).map some) with
  | none =>
    rw [listSummaries] at h
    rw [hpat] at h
    exact absurd h (by simp)
  | some pat2 =>
    rw [listSummaries_eq db q sort pat2 hpat 0 0] at h
    rw [if_neg (by simp)] at h
    have hsorted : sortSummaries sort (matchedDocs db pat2) = l :=
      (ListResult.plain.injEq _ _).mp h
    refine ⟨?_, fun L hL => chunks_flatten L hL (ceilDiv l.length L) l rfl, ?_⟩
    · intro p L hp hL
      rw [listSummaries_eq db q sort pat2 hpat (p : Int) (L : Int)]
      have hcond : ((p : Int) > 0 && (L : Int) > 0) = true := by
        simp only [Bool.and_eq_true, decide_eq_true_eq]
        exact ⟨by exact_mod_cast hp, by exact_mod_cast hL⟩
      rw [if_pos hcond, hsorted,
        show ((p : Int) - 1).toNat = p - 1 by omega]
      simp only [Int.toNat_natCast]
    · intro page limit hnp
      rw [listSummaries_eq db q sort pat2 hpat page limit]
      rw [if_neg (by simpa using fun h1 h2 => hnp ⟨h1, h2⟩)]
      rw [hsorted]

/-- Second and third fixture documents (later creation times than
`wBase`). -/
def wSecond : Summary :=
  { id := 2, note := "second note", summary := "second", tags := []
    starred := false, slug := none, createdAt := 200 }

/-- Third fixture document, the newest. -/
def wThird : Summary :=
  { id := 3, note := "third note", summary := "third", tags := ["t3"]
    starred := true, slug := none, createdAt := 300 }

/-- C5 witness: three stored documents, default newest-first order
`[wThird, wSecond, wBase]`; page 2 with limit 2 answers the second chunk
with `pages = ceil(3/2) = 2` and `total = 3`; the chunks of all pages
flatten back to the full sequence; and `page = 0` (absent) answers the
plain array. -/
theorem list_pagination_witness :
    listSummaries [wBase, wSecond, wThird] "" ((2 : Nat) : Int) ((2 : Nat) : Int)
          "-createdAt"
        = ListResult.paged
            (([wThird, wSecond, wBase].drop ((2 - 1) * 2)).take 2) 2
            (ceilDiv ([wThird, wSecond, wBase] : List Summary).length 2)
            ([wThird, wSecond, wBase] : List Summary).length
      ∧ ((List.range (ceilDiv ([wThird, wSecond, wBase] : List Summary).length 2)).map
            (fun i => (([wThird, wSecond, wBase] : List Summary).drop (i * 2)).take 2)).flatten
          = [wThird, wSecond, wBase]
      ∧ listSummaries [wBase, wSecond, wThird] "" (-3) 7 "-createdAt"
          = ListResult.plain [wThird, wSecond, wBase] := by
  have h := list_pagination [wBase, wSecond, wThird] "" "-createdAt"
    [wThird, wSecond, wBase] (by decide)
  exact ⟨h.1 2 2 (by decide) (by decide), h.2.1 2 (by decide),
    h.2.2 (-3) 7 (by simp)⟩

end FrontendCI
